import Mathlib

/-!
Verification of the Spotify-charts ETL pipeline (`datenverarbeitung.py`)
against its natural-language specification.

The development shallowly embeds the pipeline's data model and operations:
pandas Series become `List` values, scalar cells become `Option ℚ`
(`none` models `NaN`), machine floats are idealised as exact rationals
(and as reals where the source applies `np.log`/`np.log1p`), and each
source function is translated into a Lean definition of the same name.
-/

namespace DV

/-- A raw input cell of a pandas Series before numeric coercion:
a numeric value, an arbitrary string, or a missing value (`NaN`/`None`). -/
inductive RawCell : Type
  | num (q : ℚ)
  | str (s : String)
  | null
deriving DecidableEq, Repr

/-- Consume leading decimal digits of a character list, returning the
accumulated value, the number of digits consumed, and the rest. -/
def takeDigits : ℕ → ℕ → List Char → ℕ × ℕ × List Char
  | acc, n, [] => (acc, n, [])
  | acc, n, c :: cs =>
    if c.isDigit then takeDigits (acc * 10 + (c.toNat - 48)) (n + 1) cs
    else (acc, n, c :: cs)

/-- Model of the numeric-string coercion performed by
`pd.to_numeric(..., errors='coerce')`: an optional sign, decimal digits
with an optional fractional part (e.g. `"12"`, `"-3.5"`, `".5"`, `"7."`);
anything else fails to parse. -/
def parseRat (s : String) : Option ℚ :=
  let cs := s.trim.toList
  let sc : ℚ × List Char :=
    match cs with
    | '+' :: r => (1, r)
    | '-' :: r => (-1, r)
    | r => (1, r)
  let ip := takeDigits 0 0 sc.2
  match ip.2.2 with
  | [] => if ip.2.1 = 0 then none else some (sc.1 * ip.1)
  | '.' :: cs3 =>
    let fp := takeDigits 0 0 cs3
    if fp.2.2 = [] ∧ ip.2.1 + fp.2.1 ≠ 0 then
      some (sc.1 * ((ip.1 : ℚ) + (fp.1 : ℚ) / 10 ^ fp.2.1))
    else none
  | _ => none

/-- Model of `pd.to_numeric(cell, errors='coerce')` on a single cell: numbers pass
through, numeric strings are parsed, everything else becomes missing. -/
def toNumericCell : RawCell → Option ℚ
  | .num q => some q
  | .str s => parseRat s
  | .null => none

/-- Embeds `clean_numeric_column(series, col_name, clip_min, clip_max)`:
coerce every cell to numeric (non-numeric becomes missing), then clip.
As in the source, clipping applies to both bounds when both are given,
to the lower bound alone when only it is given, and not at all otherwise
(a `clip_max` without `clip_min` is ignored by the source). -/
def clean_numeric_column (series : List RawCell) (clip_min clip_max : Option ℚ) :
    List (Option ℚ) :=
  let clean := series.map toNumericCell
  match clip_min, clip_max with
  | some lo, some hi => clean.map (Option.map (fun q => min (max q lo) hi))
  | some lo, none => clean.map (Option.map (fun q => max q lo))
  | none, _ => clean

/-- The hardcoded fallback `GENRE_MAPPING` table, as an association list
preserving the Python dict's insertion order (substring matching iterates
in this order, first match wins). -/
def GENRE_MAPPING : List (String × String) :=
  [("pop", "Pop"), ("dance pop", "Pop"), ("electropop", "Pop"), ("indie pop", "Pop"),
   ("synth-pop", "Pop"), ("teen pop", "Pop"), ("k-pop", "Pop"), ("latin pop", "Pop"),
   ("hip hop", "Hip-Hop"), ("rap", "Hip-Hop"), ("trap", "Hip-Hop"), ("cloud rap", "Hip-Hop"),
   ("emo rap", "Hip-Hop"), ("gangster rap", "Hip-Hop"), ("german hip hop", "Hip-Hop"),
   ("dfw rap", "Hip-Hop"), ("deep german hip hop", "Hip-Hop"),
   ("edm", "Electronic"), ("electronic", "Electronic"), ("house", "Electronic"),
   ("techno", "Electronic"), ("dubstep", "Electronic"), ("trance", "Electronic"),
   ("deep house", "Electronic"), ("progressive house", "Electronic"), ("big room", "Electronic"),
   ("rock", "Rock"), ("alternative rock", "Rock"), ("indie rock", "Rock"),
   ("hard rock", "Rock"), ("punk rock", "Rock"), ("classic rock", "Rock"),
   ("r&b", "R&B"), ("r & b", "R&B"), ("soul", "R&B"), ("neo soul", "R&B"),
   ("latin", "Latin"), ("reggaeton", "Latin"), ("bachata", "Latin"), ("salsa", "Latin"),
   ("sertanejo", "Latin"), ("funk carioca", "Latin"), ("forro", "Latin"),
   ("country", "Country"), ("country pop", "Country"), ("bluegrass", "Country"),
   ("jazz", "Jazz"), ("bebop", "Jazz"), ("smooth jazz", "Jazz")]

/-- Tests whether `needle` matches at the head of `hay`. -/
def headMatch : List Char → List Char → Bool
  | _, [] => true
  | [], _ :: _ => false
  | h :: hs, n :: ns => h = n && headMatch hs ns

/-- Python's substring test `needle in hay` on character lists. -/
def occursIn (needle : List Char) : List Char → Bool
  | [] => headMatch [] needle
  | h :: hs => headMatch (h :: hs) needle || occursIn needle hs

/-- Python's `key in genre_lower` substring test on strings. -/
def strOccursIn (needle hay : String) : Bool :=
  occursIn needle.toList hay.toList

/-- Python's `str.lower().strip()` at the character level: ASCII
lower-casing followed by stripping whitespace from both ends. -/
def lowerStrip (s : String) : List Char :=
  (((s.toList.map Char.toLower).dropWhile Char.isWhitespace).reverse.dropWhile
    Char.isWhitespace).reverse

/-- Embeds `harmonize_genre(genre_str)`: missing maps to "Other"; otherwise
lower-case and strip, try an exact lookup in `GENRE_MAPPING`, then the
first mapping key occurring as a substring, else "Other". -/
def harmonize_genre (genre_str : Option String) : String :=
  match genre_str with
  | none => "Other"
  | some s =>
    let genre_lower := lowerStrip s
    match GENRE_MAPPING.find? (fun kv => kv.1.toList = genre_lower) with
    | some kv => kv.2
    | none =>
      match GENRE_MAPPING.find? (fun kv => occursIn kv.1.toList genre_lower) with
      | some kv => kv.2
      | none => "Other"

/-- Python's `round(x, 2)` (round-half-to-even) on exact rationals. -/
def pyRound2 (x : ℚ) : ℚ :=
  let y := x * 100
  let f : ℤ := ⌊y⌋
  let r := y - (f : ℚ)
  let n : ℤ :=
    if r < 1 / 2 then f
    else if 1 / 2 < r then f + 1
    else if f % 2 = 0 then f else f + 1
  (n : ℚ) / 100

/-- Python's `round(x, 3)` (round-half-to-even) on reals, as applied to
the Shannon diversity before it is stored in the KPI record. -/
noncomputable def pyRound3R (x : ℝ) : ℝ :=
  let y := x * 1000
  let f : ℤ := ⌊y⌋
  let r := y - (f : ℝ)
  let n : ℤ :=
    if r < 1 / 2 then f
    else if 1 / 2 < r then f + 1
    else if f % 2 = 0 then f else f + 1
  (n : ℝ) / 1000

/-- Embeds `calculate_shannon_diversity(series)`: value counts over the genre
labels, proportions, and `H = -Σ p * ln(p + 1e-12)`. -/
noncomputable def calculate_shannon_diversity (series : List String) : ℝ :=
  let n : ℚ := series.length
  let vals := series.dedup;
  -(vals.map (fun v =>
      let p : ℚ := (series.count v : ℚ) / n;
      (p : ℝ) * Real.log ((p : ℝ) + 1e-12))).sum

/-- A scoring batch: the six columns `calculate_success_score` reads,
each present (`some cells`) or absent from the schema (`none`), together
with the row count of the frame. -/
structure ScoreFrame where
  nrows : ℕ
  rank : Option (List RawCell)
  streams : Option (List RawCell)
  danceability : Option (List RawCell)
  energy : Option (List RawCell)
  artist_followers : Option (List RawCell)
  top10_dummy : Option (List RawCell)

/-- Models `x.fillna(0)` on one cell. -/
def fillna0 (c : Option ℚ) : ℚ := c.getD 0

/-- Embeds `calculate_success_score(df)`: weighted sum of normalized sub-terms,
each contributing only if its column is present; absent columns contribute
zero and weights are not renormalized. The two log-normalized terms
(`streams`, `Artist_followers`) are skipped when the batch maximum of the
log-transformed column is not positive. -/
noncomputable def calculate_success_score (df : ScoreFrame) : List ℝ :=
  let scores : List ℝ := List.replicate df.nrows 0
  let s1 :=
    match df.rank with
    | none => scores
    | some col =>
      let rank_clean := clean_numeric_column col (some 1) (some 200)
      scores.zipWith (fun s c => s +
        (match c with
         | some q => ((200 - (q : ℝ)) / 200 * 100)
         | none => 0) * 0.25) rank_clean
  let s2 :=
    match df.streams with
    | none => s1
    | some col =>
      let streams_clean := clean_numeric_column col (some 0) none
      let streams_log : List ℝ :=
        streams_clean.map (fun c => Real.log (1 + (fillna0 c : ℝ)))
      let m := streams_log.foldr max 0
      if 0 < m then
        s1.zipWith (fun s x => s + x / m * 100 * 0.15) streams_log
      else s1
  let s3 :=
    match df.danceability with
    | none => s2
    | some col =>
      let dance_clean := clean_numeric_column col (some 0) (some 1)
      s2.zipWith (fun s c => s + (fillna0 c : ℝ) * 100 * 0.15) dance_clean
  let s4 :=
    match df.energy with
    | none => s3
    | some col =>
      let energy_clean := clean_numeric_column col (some 0) (some 1)
      s3.zipWith (fun s c => s + (fillna0 c : ℝ) * 100 * 0.15) energy_clean
  let s5 :=
    match df.artist_followers with
    | none => s4
    | some col =>
      let followers_clean := clean_numeric_column col (some 0) none
      let followers_log : List ℝ :=
        followers_clean.map (fun c => Real.log (1 + (fillna0 c : ℝ)))
      let m := followers_log.foldr max 0
      if 0 < m then
        s4.zipWith (fun s x => s + x / m * 100 * 0.20) followers_log
      else s4
  let s6 :=
    match df.top10_dummy with
    | none => s5
    | some col =>
      let top10_clean := clean_numeric_column col (some 0) (some 1)
      s5.zipWith (fun s c => s + (fillna0 c : ℝ) * 100 * 0.10) top10_clean
  s6

/-- One row of the merged enriched-track table, as consumed by the KPI
aggregation loop of `main` (only the fields that loop reads). -/
structure MergedRow where
  track_id : String
  market : String
  year : ℤ
  genre_harmonized : String
  streams : ℚ
  success_score : ℚ
deriving DecidableEq, Repr

/-- One row of the KPI table, with the exact fields `main` emits. -/
structure KPIRecord where
  market : String
  year : ℤ
  genre : String
  genre_harmonized : String
  streams_total : ℚ
  market_share_percent : ℚ
  index_growth_2017_2021 : ℚ
  shannon_diversity : ℝ
  success_rate_percent : ℚ
  market_potential_score : ℚ
  growth_momentum_index : ℚ

/-- The baseline slice `merged[(year == min_year) & (market == m) & (genre == g)]`. -/
def baselineGroup (merged : List MergedRow) (min_year : ℤ) (market genre : String) :
    List MergedRow :=
  merged.filter fun r =>
    r.year = min_year ∧ r.market = market ∧ r.genre_harmonized = genre

/-- The growth-momentum computation of the KPI loop: current genre streams
relative to the same (market, genre) slice at the baseline year, times 100;
100.0 whenever there is no baseline data, the current year is not past the
baseline, or the baseline streams are not positive. -/
def growth_momentum (merged : List MergedRow) (min_year year : ℤ)
    (market genre : String) (current_streams : ℚ) : ℚ :=
  let baseline_group := baselineGroup merged min_year market genre
  if 0 < baseline_group.length ∧ min_year < year then
    let baseline_streams := (baseline_group.map (·.streams)).sum
    if 0 < baseline_streams then current_streams / baseline_streams * 100
    else 100
  else 100

/-- Lexicographic comparison of character lists by code point, the order
pandas uses on string group keys. -/
def charListLE : List Char → List Char → Bool
  | [], _ => true
  | _ :: _, [] => false
  | a :: as, b :: bs =>
    a.toNat < b.toNat || (a = b && charListLE as bs)

/-- String comparison for the sorted iteration order of `groupby`. -/
def strLE (a b : String) : Prop :=
  charListLE a.toList b.toList = true

instance : DecidableRel strLE := fun a b => by
  unfold strLE; infer_instance

/-- Lexicographic order on the (year, market) group keys, matching the
sorted iteration order of `merged.groupby(['year', 'market'])`. -/
def keyLE (a b : ℤ × String) : Prop :=
  a.1 < b.1 ∨ (a.1 = b.1 ∧ strLE a.2 b.2)

instance : DecidableRel keyLE := fun a b => by
  unfold keyLE; infer_instance

/-- The KPI record appended by the aggregation loop of `main` for one
(year, market, genre): market share, Shannon diversity of the whole
(year, market) slice, success rate, growth momentum and the blended
market-potential score. -/
noncomputable def kpi_row (merged : List MergedRow) (min_year year : ℤ)
    (market genre : String) : KPIRecord :=
  let group := merged.filter fun r => r.year = year ∧ r.market = market
  let total_streams := (group.map (·.streams)).sum
  let shannon := calculate_shannon_diversity (group.map (·.genre_harmonized))
  let genre_group := group.filter fun r => r.genre_harmonized = genre
  let genre_streams := (genre_group.map (·.streams)).sum
  let share := pyRound2 (genre_streams / total_streams * 100)
  let success_rate :=
    ((genre_group.filter fun r => 65 ≤ r.success_score).length : ℚ) /
      (genre_group.length : ℚ) * 100
  let growth := growth_momentum merged min_year year market genre genre_streams
  let growth_capped := min growth 200
  let growth_norm_0_100 := growth_capped / 200 * 100
  let market_potential := share * 0.4 + success_rate * 0.3 + growth_norm_0_100 * 0.3
  { market := market
    year := year
    genre := genre
    genre_harmonized := genre
    streams_total := genre_streams
    market_share_percent := share
    index_growth_2017_2021 := growth
    shannon_diversity := pyRound3R shannon
    success_rate_percent := pyRound2 success_rate
    market_potential_score := pyRound2 market_potential
    growth_momentum_index := pyRound2 growth }

/-- The KPI aggregation loop of `main` (section 7): for every
(year, market) group with nonzero total streams, one KPI record per
genre of the group. -/
noncomputable def aggregate_kpis (merged : List MergedRow) (min_year : ℤ) :
    List KPIRecord :=
  let keys := ((merged.map fun r => (r.year, r.market)).dedup).insertionSort keyLE
  keys.flatMap fun key =>
    let group := merged.filter fun r => r.year = key.1 ∧ r.market = key.2
    let total_streams : ℚ := (group.map (·.streams)).sum
    if total_streams = 0 then []
    else
      let genres := ((group.map (·.genre_harmonized)).dedup).insertionSort strLE
      genres.map (kpi_row merged min_year key.1 key.2)

instance : Inhabited KPIRecord :=
  ⟨⟨"", 0, "", "", 0, 0, 0, 0, 0, 0, 0⟩⟩

/-- One chart row as it enters the merge step (fields beyond the join key
are irrelevant to the merge semantics and kept representative). -/
structure ChartRow where
  track_id : String
  date : String
  market : String
  streams : ℚ
deriving DecidableEq, Repr

/-- One audio-features row keyed by `track_id`. -/
structure AudioRow where
  track_id : String
  danceability : Option ℚ
  energy : Option ℚ
deriving DecidableEq, Repr

/-- One genre-assignment row keyed by `track_id`. -/
structure GenreRow where
  track_id : String
  genre_harmonized : String
deriving DecidableEq, Repr

/-- Models `left.merge(right, on=key, how='left')`: every left row is paired
with each matching right row, or with a missing right side when no row
matches. -/
def merge_left {α β : Type} (left : List α) (right : List β)
    (kl : α → String) (kr : β → String) : List (α × Option β) :=
  left.flatMap fun l =>
    match right.filter (fun r => kr r == kl l) with
    | [] => [(l, none)]
    | m :: ms => (m :: ms).map fun r => (l, some r)

/-- One row of the merged table produced by the two left joins, after
`merged['genre_harmonized'] = merged['genre_harmonized'].fillna('Other')`. -/
structure MergedTrack where
  chart : ChartRow
  audio : Option AudioRow
  genre_harmonized : String
deriving DecidableEq, Repr

/-- The merge step of `main` (section 5): charts left-joined with the
audio table, then with the genre table, on `track_id`; unmatched genre
values are filled with "Other", unmatched audio stays missing. -/
def merge_charts (charts : List ChartRow) (audio : List AudioRow)
    (genre : List GenreRow) : List MergedTrack :=
  let m1 := merge_left charts audio (·.track_id) (·.track_id)
  let m2 := merge_left m1 genre (fun p => p.1.track_id) (·.track_id)
  m2.map fun p =>
    { chart := p.1.1
      audio := p.1.2
      genre_harmonized :=
        match p.2 with
        | some g => g.genre_harmonized
        | none => "Other" }

/-- The checks of `validate_kpi_output`, as tags: the three hard checks
and the two warning-level checks, in the order the source appends them. -/
inductive ValidationError : Type
  | dupKeys
  | badShareSums
  | constantGrowth
  | warnBaselineNot100
  | warnHighPotential
deriving DecidableEq, Repr

/-- Embeds `validate_kpi_output(kpi_df, min_year)`: evaluates all five checks,
collects every failure (warnings included) into one error list, and
returns `(errors.isEmpty, errors)` exactly as the source does. -/
def validate_kpi_output (kpi : List KPIRecord) (min_year : ℤ) :
    Bool × List ValidationError :=
  let keys := kpi.map fun r => (r.market, r.year, r.genre_harmonized)
  let e1 : List ValidationError :=
    if keys.Nodup then [] else [.dupKeys]
  let pairs := (kpi.map fun r => (r.market, r.year)).dedup
  let badSums := pairs.filter fun p =>
    let s := ((kpi.filter fun r => r.market = p.1 ∧ r.year = p.2).map
      (·.market_share_percent)).sum
    s < 99.8 ∨ 100.2 < s
  let e2 : List ValidationError :=
    if 0 < badSums.length then [.badShareSums] else []
  let e3 : List ValidationError :=
    if (kpi.map (·.index_growth_2017_2021)).dedup.length ≤ 1 then [.constantGrowth]
    else []
  let baseline_data := kpi.filter fun r => r.year = min_year
  let w1 : List ValidationError :=
    if 0 < baseline_data.length ∧
        0 < (baseline_data.filter fun r => r.index_growth_2017_2021 ≠ 100).length then
      [.warnBaselineNot100]
    else []
  let w2 : List ValidationError :=
    if 150 < (kpi.map (·.market_potential_score)).foldr max 0 then
      [.warnHighPotential]
    else []
  let errors := e1 ++ e2 ++ e3 ++ w1 ++ w2
  (errors.isEmpty, errors)

/-- The output directory modelled as a map from file name to the row
count of the table stored there. -/
def FileSystem : Type := List (String × ℕ)

/-- Overwrite (or create) one output file. -/
def writeFile (fs : FileSystem) (name : String) (rows : ℕ) : FileSystem :=
  (fs.filter fun f => f.1 ≠ name) ++ [(name, rows)]

/-- The tail of `main` from the validation gate on: if
`validate_kpi_output` reports failure, `main` returns before the export
section, leaving the output directory untouched; otherwise the four
output tables are written. -/
def run_export (fs : FileSystem) (kpi : List KPIRecord) (min_year : ℤ)
    (merged_rows high_potential_rows market_trends_rows : ℕ) : FileSystem :=
  if (validate_kpi_output kpi min_year).1 then
    writeFile
      (writeFile
        (writeFile
          (writeFile fs "cleaned_charts_kpi.csv" kpi.length)
          "spotify_charts_enhanced.csv" merged_rows)
        "high_potential_tracks.csv" high_potential_rows)
      "cleaned_market_trends.csv" market_trends_rows
  else fs

/-! Helper lemmas about the rounding functions -/

theorem pyRound2_eq_self {x : ℚ} (n : ℤ) (h : x * 100 = (n : ℚ)) : pyRound2 x = x := by
  have hx : x = (n : ℚ) / 100 := by field_simp; linarith
  simp only [pyRound2, h, Int.floor_intCast, sub_self]
  rw [if_pos (by norm_num)]
  rw [hx]

theorem pyRound2_nonneg {x : ℚ} (hx : 0 ≤ x) : 0 ≤ pyRound2 x := by
  have h1 : (0 : ℤ) ≤ ⌊x * 100⌋ := Int.floor_nonneg.mpr (by positivity)
  simp only [pyRound2]
  split_ifs <;>
    · refine div_nonneg ?_ (by norm_num)
      exact_mod_cast by omega

theorem pyRound2_le_100 {x : ℚ} (hx : x ≤ 100) : pyRound2 x ≤ 100 := by
  have h1 : ((⌊x * 100⌋ : ℤ) : ℚ) ≤ x * 100 := Int.floor_le _
  have h2 : x * 100 < ((⌊x * 100⌋ : ℤ) : ℚ) + 1 := Int.lt_floor_add_one _
  have hy : x * 100 ≤ 10000 := by linarith
  have hcase : ∀ m : ℤ, ((m : ℚ) ≤ 10000) → (m : ℚ) / 100 ≤ 100 := by
    intro m hm
    rw [div_le_iff (by norm_num)]
    linarith
  have hsucc : ((⌊x * 100⌋ : ℤ) : ℚ) + 1 / 2 ≤ x * 100 →
      ((⌊x * 100⌋ + 1 : ℤ) : ℚ) ≤ 10000 := by
    intro hhalf
    have hlt : ((⌊x * 100⌋ + 1 : ℤ) : ℚ) < 10001 := by push_cast; linarith
    have hlt2 : (⌊x * 100⌋ + 1 : ℤ) < 10001 := by exact_mod_cast hlt
    have hle : (⌊x * 100⌋ + 1 : ℤ) ≤ 10000 := by omega
    exact_mod_cast hle
  simp only [pyRound2]
  split_ifs with hc1 hc2 hc3
  · exact hcase _ (by linarith)
  · exact hcase _ (hsucc (by linarith))
  · exact hcase _ (by linarith)
  · exact hcase _ (hsucc (by linarith))

theorem pyRound3R_abs_sub_le (x : ℝ) : |pyRound3R x - x| ≤ 1 / 2000 := by
  have h1 : ((⌊x * 1000⌋ : ℤ) : ℝ) ≤ x * 1000 := Int.floor_le _
  have h2 : x * 1000 < ((⌊x * 1000⌋ : ℤ) : ℝ) + 1 := Int.lt_floor_add_one _
  rw [abs_le]
  simp only [pyRound3R]
  split_ifs <;> constructor <;> push_cast <;> nlinarith

/-! Numeric bounds for the natural logarithm at the Shannon inputs -/

theorem log23_bounds :
    -(17761 / 43740 : ℝ) ≤ Real.log (2 / 3) ∧
      Real.log (2 / 3) ≤ -(17701 / 43740 : ℝ) := by
  have h := @Real.abs_log_sub_add_sum_range_le (1 / 3) (by rw [abs_of_pos] <;> norm_num) 6
  rw [show (1 : ℝ) - 1 / 3 = 2 / 3 by norm_num] at h
  rw [show |(1 : ℝ) / 3| = 1 / 3 by rw [abs_of_pos] <;> norm_num] at h
  have hs : (∑ i ∈ Finset.range 6, ((1 : ℝ) / 3) ^ (i + 1) / (i + 1)) = 17731 / 43740 := by
    simp [Finset.sum_range_succ]
    norm_num
  rw [hs] at h
  rw [abs_le] at h
  constructor <;> nlinarith [h.1, h.2]

theorem log_add_eps_le {p e : ℝ} (hp : 0 < p) (he : 0 ≤ e) :
    Real.log (p + e) ≤ Real.log p + e / p := by
  have h1 : Real.log ((p + e) / p) ≤ (p + e) / p - 1 :=
    Real.log_le_sub_one_of_pos (by positivity)
  rw [Real.log_div (by positivity) (ne_of_gt hp)] at h1
  have h2 : (p + e) / p - 1 = e / p := by field_simp
  linarith

theorem log13_eq : Real.log (1 / 3 : ℝ) = Real.log (2 / 3) - Real.log 2 := by
  rw [show (1 : ℝ) / 3 = (2 / 3) / 2 by norm_num,
    Real.log_div (by norm_num) (by norm_num)]

theorem shannon_H_bounds :
    0.6305 < -((2 / 3 : ℝ) * Real.log (2 / 3 + 1e-12) + (1 / 3 : ℝ) * Real.log (1 / 3 + 1e-12)) ∧
      -((2 / 3 : ℝ) * Real.log (2 / 3 + 1e-12) + (1 / 3 : ℝ) * Real.log (1 / 3 + 1e-12)) < 0.6395 := by
  have l23 := log23_bounds
  have l2a := Real.log_two_gt_d9
  have l2b := Real.log_two_lt_d9
  have l13 := log13_eq
  have ha1 : Real.log (2 / 3 : ℝ) ≤ Real.log (2 / 3 + 1e-12) :=
    Real.log_le_log (by norm_num) (by norm_num)
  have ha2 : Real.log ((2 / 3 : ℝ) + 1e-12) ≤ Real.log (2 / 3) + 1e-12 / (2 / 3) :=
    log_add_eps_le (by norm_num) (by norm_num)
  have hb1 : Real.log (1 / 3 : ℝ) ≤ Real.log (1 / 3 + 1e-12) :=
    Real.log_le_log (by norm_num) (by norm_num)
  have hb2 : Real.log ((1 / 3 : ℝ) + 1e-12) ≤ Real.log (1 / 3) + 1e-12 / (1 / 3) :=
    log_add_eps_le (by norm_num) (by norm_num)
  constructor <;> nlinarith [l23.1, l23.2]

/-! List helper lemmas -/

theorem sublist_sum_le {l₁ l₂ : List ℚ} (h : l₁.Sublist l₂)
    (h2 : ∀ x ∈ l₂, 0 ≤ x) : l₁.sum ≤ l₂.sum := by
  induction h with
  | slnil => simp
  | cons a hs ih =>
    have := ih fun x hx => h2 x (List.mem_cons_of_mem _ hx)
    have ha := h2 a (List.mem_cons_self _ _)
    simp only [List.sum_cons]
    linarith
  | cons₂ a hs ih =>
    have := ih fun x hx => h2 x (List.mem_cons_of_mem _ hx)
    simp only [List.sum_cons]
    linarith

theorem filter_map_sum_le (l : List MergedRow) (p : MergedRow → Bool)
    (h : ∀ r ∈ l, 0 ≤ r.streams) :
    ((l.filter p).map (·.streams)).sum ≤ (l.map (·.streams)).sum := by
  refine sublist_sum_le (List.Sublist.map _ (List.filter_sublist l)) ?_
  intro x hx
  obtain ⟨r, hr, rfl⟩ := List.mem_map.mp hx
  exact h r hr

theorem map_streams_sum_nonneg (l : List MergedRow)
    (h : ∀ r ∈ l, 0 ≤ r.streams) : 0 ≤ (l.map (·.streams)).sum := by
  refine List.sum_nonneg ?_
  intro x hx
  obtain ⟨r, hr, rfl⟩ := List.mem_map.mp hx
  exact h r hr

theorem foldr_max_le {l : List ℚ} {c : ℚ} (hc : 0 ≤ c)
    (h : ∀ x ∈ l, x ≤ c) : l.foldr max 0 ≤ c := by
  induction l with
  | nil => simpa using hc
  | cons a as ih =>
    simp only [List.foldr_cons, max_le_iff]
    exact ⟨h a (List.mem_cons_self _ _),
      ih fun x hx => h x (List.mem_cons_of_mem _ hx)⟩

/-! Membership in the aggregator output -/

theorem mem_aggregate_kpis {merged : List MergedRow} {min_year : ℤ} {rec : KPIRecord}
    (h : rec ∈ aggregate_kpis merged min_year) :
    ∃ year market genre,
      ((merged.filter fun r => r.year = year ∧ r.market = market).map (·.streams)).sum ≠ 0 ∧
      rec = kpi_row merged min_year year market genre := by
  simp only [aggregate_kpis] at h
  rw [List.mem_flatMap] at h
  obtain ⟨key, hkey, h⟩ := h
  by_cases h0 :
      ((merged.filter fun r => r.year = key.1 ∧ r.market = key.2).map (·.streams)).sum = 0
  · rw [if_pos h0] at h
    exact absurd h (List.not_mem_nil _)
  · rw [if_neg h0] at h
    rw [List.mem_map] at h
    obtain ⟨genre, hgen, hrec⟩ := h
    exact ⟨key.1, key.2, genre, h0, hrec.symm⟩

/-! Concrete inputs used by the scenario claims -/

/-- The C3 scenario slice: market "DE", year 2017, genres Pop, Pop, Rock,
streams 100, 100, 50. -/
def mergedC3 : List MergedRow :=
  [⟨"t1", "DE", 2017, "Pop", 100, 0⟩,
   ⟨"t2", "DE", 2017, "Pop", 100, 0⟩,
   ⟨"t3", "DE", 2017, "Rock", 50, 0⟩]

/-- The Shannon diversity the aggregator stores for the C3 slice. -/
noncomputable def shannonC3 : ℝ :=
  pyRound3R (calculate_shannon_diversity (("Pop") :: ("Pop") :: ("Rock") :: []))

theorem aggregate_kpis_mergedC3 :
    aggregate_kpis mergedC3 2017 =
      [⟨"DE", 2017, "Pop", "Pop", 200, 80, 100, shannonC3, 0, 47, 100⟩,
       ⟨"DE", 2017, "Rock", "Rock", 50, 20, 100, shannonC3, 0, 23, 100⟩] := by
  have h80 : pyRound2 (80 : ℚ) = 80 := pyRound2_eq_self 8000 (by norm_num)
  have h20 : pyRound2 (20 : ℚ) = 20 := pyRound2_eq_self 2000 (by norm_num)
  have h0 : pyRound2 (0 : ℚ) = 0 := pyRound2_eq_self 0 (by norm_num)
  have h100 : pyRound2 (100 : ℚ) = 100 := pyRound2_eq_self 10000 (by norm_num)
  have h47 : pyRound2 (47 : ℚ) = 47 := pyRound2_eq_self 4700 (by norm_num)
  have h23 : pyRound2 (23 : ℚ) = 23 := pyRound2_eq_self 2300 (by norm_num)
  simp +decide [aggregate_kpis, kpi_row, mergedC3, growth_momentum, baselineGroup, keyLE,
    List.insertionSort, List.orderedInsert, List.dedup, shannonC3, min_def]
  norm_num [show (200 : ℚ) / 250 * 100 = 80 by norm_num,
    show (50 : ℚ) / 250 * 100 = 20 by norm_num, h80, h20, h0, h100, h47, h23]

theorem shannonC3_H_eq :
    calculate_shannon_diversity (("Pop") :: ("Pop") :: ("Rock") :: []) =
      -((2 / 3 : ℝ) * Real.log (2 / 3 + 1e-12) + (1 / 3 : ℝ) * Real.log (1 / 3 + 1e-12)) := by
  simp +decide [calculate_shannon_diversity, List.dedup]

theorem shannonC3_bounds : 0.63 < shannonC3 ∧ shannonC3 < 0.64 := by
  have h := pyRound3R_abs_sub_le
    (calculate_shannon_diversity (("Pop") :: ("Pop") :: ("Rock") :: []))
  rw [abs_le] at h
  have hb1 : (0.6305 : ℝ) <
      calculate_shannon_diversity (("Pop") :: ("Pop") :: ("Rock") :: []) := by
    rw [shannonC3_H_eq]; exact shannon_H_bounds.1
  have hb2 : calculate_shannon_diversity (("Pop") :: ("Pop") :: ("Rock") :: []) < 0.6395 := by
    rw [shannonC3_H_eq]; exact shannon_H_bounds.2
  unfold shannonC3
  constructor <;> linarith [h.1, h.2]

/-- The C2 scenario batch: a single row with rank 1, streams 0,
danceability 0.8, energy 0.8, Artist_followers 0, Top10_dummy 1, and
exactly these six score columns present. -/
def scoreC2 : ScoreFrame :=
  ⟨1, some [.num 1], some [.num 0], some [.num 0.8], some [.num 0.8],
   some [.num 0], some [.num 1]⟩

theorem scoreC2_eval : calculate_success_score scoreC2 = [58.875] := by
  simp +decide [calculate_success_score, scoreC2, clean_numeric_column, toNumericCell,
    fillna0, min_def, max_def, Real.log_one]
  norm_num

/-- A two-year merged table for the growth-momentum and potential-score
witnesses: one "Pop" row in the baseline year 2017 and one in 2018. -/
def mergedC6 : List MergedRow :=
  [⟨"t1", "DE", 2017, "Pop", 100, 70⟩,
   ⟨"t2", "DE", 2018, "Pop", 150, 70⟩]

/-- The Shannon diversity stored for the one-genre slices of `mergedC6`. -/
noncomputable def shannonC6 : ℝ :=
  pyRound3R (calculate_shannon_diversity (("Pop") :: []))

/-- The KPI record `aggregate_kpis` emits for the baseline year of
`mergedC6`. -/
noncomputable def recC6A : KPIRecord :=
  ⟨"DE", 2017, "Pop", "Pop", 100, 100, 100, shannonC6, 100, 85, 100⟩

/-- The KPI record `aggregate_kpis` emits for 2018 of `mergedC6`. -/
noncomputable def recC6B : KPIRecord :=
  ⟨"DE", 2018, "Pop", "Pop", 150, 100, 150, shannonC6, 100, 92.5, 150⟩

theorem aggregate_kpis_mergedC6 :
    aggregate_kpis mergedC6 2017 = [recC6A, recC6B] := by
  rw [show [recC6A, recC6B] =
    [⟨"DE", 2017, "Pop", "Pop", 100, 100, 100, shannonC6, 100, 85, 100⟩,
     ⟨"DE", 2018, "Pop", "Pop", 150, 100, 150, shannonC6, 100, 92.5, 150⟩] from rfl]
  have h100 : pyRound2 (100 : ℚ) = 100 := pyRound2_eq_self 10000 (by norm_num)
  have h150 : pyRound2 (150 : ℚ) = 150 := pyRound2_eq_self 15000 (by norm_num)
  have h85 : pyRound2 (85 : ℚ) = 85 := pyRound2_eq_self 8500 (by norm_num)
  have h925 : pyRound2 ((185 : ℚ) / 2) = 185 / 2 := pyRound2_eq_self 9250 (by norm_num)
  simp +decide [aggregate_kpis, kpi_row, mergedC6, growth_momentum, baselineGroup, keyLE,
    List.insertionSort, List.orderedInsert, List.dedup, shannonC6, min_def]
  norm_num [show (100 : ℚ) / 100 * 100 = 100 by norm_num,
    show (150 : ℚ) / 150 * 100 = 100 by norm_num,
    show (150 : ℚ) / 100 * 100 = 150 by norm_num, h100, h150, h85, h925]

/-- A KPI table on which the three hard validator checks pass while the
baseline-year warning condition holds (a 2017 row with growth 105). -/
noncomputable def kpiC1 : List KPIRecord :=
  [⟨"DE", 2017, "Pop", "Pop", 100, 100, 105, 0, 0, 50, 105⟩,
   ⟨"DE", 2018, "Pop", "Pop", 120, 100, 120, 0, 0, 50, 120⟩]

theorem validate_kpiC1_eval :
    validate_kpi_output kpiC1 2017 = (false, [ValidationError.warnBaselineNot100]) := by
  simp +decide [validate_kpi_output, kpiC1, List.dedup]
  norm_num

/-! Merge-engine lemmas -/

theorem filter_key_length_le_one {β : Type} (right : List β) (kr : β → String)
    (h : (right.map kr).Nodup) (k : String) :
    (right.filter fun r => kr r == k).length ≤ 1 := by
  induction right with
  | nil => simp
  | cons b bs ih =>
    simp only [List.map_cons, List.nodup_cons] at h
    by_cases hb : kr b = k
    · have hnil : bs.filter (fun r => kr r == k) = [] := by
        rw [List.filter_eq_nil]
        intro r hr
        simp only [beq_iff_eq]
        intro hrk
        exact h.1 (hb ▸ hrk ▸ List.mem_map_of_mem kr hr)
      simp [List.filter_cons, hb, hnil]
    · simpa [List.filter_cons, hb] using ih h.2

theorem merge_left_length {α β : Type} (left : List α) (right : List β)
    (kl : α → String) (kr : β → String) (h : (right.map kr).Nodup) :
    (merge_left left right kl kr).length = left.length := by
  induction left with
  | nil => rfl
  | cons a as ih =>
    unfold merge_left
    rw [List.flatMap_cons, List.length_append]
    unfold merge_left at ih
    rw [ih]
    have hle := filter_key_length_le_one right kr h (kl a)
    cases hfil : right.filter (fun r => kr r == kl a) with
    | nil =>
      simp [hfil]
      omega
    | cons m ms =>
      rw [hfil] at hle
      simp only [List.length_cons] at hle
      have hms : ms = [] := List.length_eq_zero.mp (by omega)
      subst hms
      simp only [hfil, List.length_map, List.length_cons, List.length_nil]
      omega

theorem mem_merge_left {α β : Type} {left : List α} {right : List β}
    {kl : α → String} {kr : β → String} {p : α × Option β}
    (hp : p ∈ merge_left left right kl kr) :
    p.1 ∈ left ∧
      (p.2 = none ∨ ∃ b, p.2 = some b ∧ b ∈ right ∧ kr b = kl p.1) := by
  unfold merge_left at hp
  rw [List.mem_flatMap] at hp
  obtain ⟨l, hl, hpl⟩ := hp
  cases hfil : right.filter (fun r => kr r == kl l) with
  | nil =>
    rw [hfil] at hpl
    simp only [List.mem_singleton] at hpl
    subst hpl
    exact ⟨hl, Or.inl rfl⟩
  | cons m ms =>
    rw [hfil] at hpl
    rw [List.mem_map] at hpl
    obtain ⟨r, hr, hpr⟩ := hpl
    subst hpr
    rw [← hfil] at hr
    have hr2 := List.mem_filter.mp hr
    refine ⟨hl, Or.inr ⟨r, rfl, hr2.1, ?_⟩⟩
    simpa using hr2.2

/-! Bounds on the aggregator fields -/

theorem pyRound2_100 : pyRound2 (100 : ℚ) = 100 :=
  pyRound2_eq_self 10000 (by norm_num)

theorem growth_momentum_nonneg (merged : List MergedRow) (min_year year : ℤ)
    (market genre : String) {current_streams : ℚ} (hc : 0 ≤ current_streams) :
    0 ≤ growth_momentum merged min_year year market genre current_streams := by
  simp only [growth_momentum]
  split_ifs with h1 h2
  · positivity
  · norm_num
  · norm_num

theorem kpi_row_potential_bounds (merged : List MergedRow) (min_year year : ℤ)
    (market genre : String) (hpos : ∀ r ∈ merged, 0 ≤ r.streams) :
    0 ≤ (kpi_row merged min_year year market genre).market_potential_score ∧
      (kpi_row merged min_year year market genre).market_potential_score ≤ 100 := by
  have hgroup : ∀ r ∈ merged.filter fun r => r.year = year ∧ r.market = market,
      0 ≤ r.streams := fun r hr => hpos r (List.mem_filter.mp hr).1
  have hgg : ∀ r ∈ (merged.filter fun r => r.year = year ∧ r.market = market).filter
      (fun r => r.genre_harmonized = genre), 0 ≤ r.streams :=
    fun r hr => hgroup r (List.mem_filter.mp hr).1
  have htot : (0 : ℚ) ≤
      (((merged.filter fun r => r.year = year ∧ r.market = market)).map (·.streams)).sum :=
    map_streams_sum_nonneg _ hgroup
  have hgs : (0 : ℚ) ≤
      ((((merged.filter fun r => r.year = year ∧ r.market = market)).filter
        (fun r => r.genre_harmonized = genre)).map (·.streams)).sum :=
    map_streams_sum_nonneg _ hgg
  have hgsle :
      ((((merged.filter fun r => r.year = year ∧ r.market = market)).filter
        (fun r => r.genre_harmonized = genre)).map (·.streams)).sum ≤
      (((merged.filter fun r => r.year = year ∧ r.market = market)).map (·.streams)).sum :=
    filter_map_sum_le _ _ hgroup
  simp only [kpi_row]
  set G := merged.filter fun r => r.year = year ∧ r.market = market with hG
  set GG := G.filter fun r => r.genre_harmonized = genre with hGG
  set tot := (G.map (·.streams)).sum with htotdef
  set gs := (GG.map (·.streams)).sum with hgsdef
  have hshare_raw : 0 ≤ gs / tot * 100 ∧ gs / tot * 100 ≤ 100 := by
    rcases eq_or_lt_of_le htot with h0 | h0
    · rw [← h0, div_zero, zero_mul]
      norm_num
    · constructor
      · positivity
      · have hr1 : gs / tot ≤ 1 := (div_le_one h0).mpr hgsle
        nlinarith
  have hshare : 0 ≤ pyRound2 (gs / tot * 100) ∧ pyRound2 (gs / tot * 100) ≤ 100 :=
    ⟨pyRound2_nonneg hshare_raw.1, pyRound2_le_100 hshare_raw.2⟩
  have hsr : 0 ≤ ((GG.filter fun r => 65 ≤ r.success_score).length : ℚ) /
        (GG.length : ℚ) * 100 ∧
      ((GG.filter fun r => 65 ≤ r.success_score).length : ℚ) / (GG.length : ℚ) * 100 ≤ 100 := by
    rcases Nat.eq_zero_or_pos GG.length with hz | hlen
    · rw [hz]
      norm_num
    · have hc : ((GG.filter fun r => 65 ≤ r.success_score).length : ℚ) ≤ (GG.length : ℚ) := by
        exact_mod_cast List.length_filter_le _ _
      have hlq : (0 : ℚ) < (GG.length : ℚ) := by exact_mod_cast hlen
      constructor
      · positivity
      · have : ((GG.filter fun r => 65 ≤ r.success_score).length : ℚ) / (GG.length : ℚ) ≤ 1 :=
          (div_le_one hlq).mpr hc
        nlinarith
  have hgrow : 0 ≤ growth_momentum merged min_year year market genre gs :=
    growth_momentum_nonneg merged min_year year market genre hgs
  have hcap1 : 0 ≤ min (growth_momentum merged min_year year market genre gs) 200 :=
    le_min hgrow (by norm_num)
  have hcap2 : min (growth_momentum merged min_year year market genre gs) 200 ≤ 200 :=
    min_le_right _ _
  have hmp : 0 ≤ pyRound2 (gs / tot * 100) * 0.4 +
        ((GG.filter fun r => 65 ≤ r.success_score).length : ℚ) / (GG.length : ℚ) * 100 * 0.3 +
        min (growth_momentum merged min_year year market genre gs) 200 / 200 * 100 * 0.3 ∧
      pyRound2 (gs / tot * 100) * 0.4 +
        ((GG.filter fun r => 65 ≤ r.success_score).length : ℚ) / (GG.length : ℚ) * 100 * 0.3 +
        min (growth_momentum merged min_year year market genre gs) 200 / 200 * 100 * 0.3 ≤
        100 := by
    constructor <;> nlinarith [hshare.1, hshare.2, hsr.1, hsr.2, hcap1, hcap2]
  exact ⟨pyRound2_nonneg hmp.1, pyRound2_le_100 hmp.2⟩

/-! Growth-momentum case analysis -/

theorem growth_momentum_baseline_year (merged : List MergedRow) (min_year : ℤ)
    (market genre : String) (cs : ℚ) :
    growth_momentum merged min_year min_year market genre cs = 100 := by
  simp [growth_momentum]

theorem growth_momentum_no_baseline {merged : List MergedRow} {min_year : ℤ}
    {market genre : String} (h : baselineGroup merged min_year market genre = [])
    (year : ℤ) (cs : ℚ) :
    growth_momentum merged min_year year market genre cs = 100 := by
  simp [growth_momentum, h]

theorem growth_momentum_zero_baseline {merged : List MergedRow} {min_year : ℤ}
    {market genre : String}
    (h : ((baselineGroup merged min_year market genre).map (·.streams)).sum = 0)
    (year : ℤ) (cs : ℚ) :
    growth_momentum merged min_year year market genre cs = 100 := by
  simp only [growth_momentum]
  split_ifs with h1 h2
  · rw [h] at h2
    exact absurd h2 (lt_irrefl 0)
  · rfl
  · rfl

theorem growth_momentum_ratio {merged : List MergedRow} {min_year : ℤ}
    {market genre : String} {year : ℤ}
    (hne : baselineGroup merged min_year market genre ≠ [])
    (hyear : min_year < year)
    (hsum : 0 < ((baselineGroup merged min_year market genre).map (·.streams)).sum)
    (cs : ℚ) :
    growth_momentum merged min_year year market genre cs =
      cs / ((baselineGroup merged min_year market genre).map (·.streams)).sum * 100 := by
  simp only [growth_momentum]
  rw [if_pos ⟨List.length_pos.mpr hne, hyear⟩, if_pos hsum]

/-! The aggregator never trips the potential-score warning -/

theorem aggregate_no_high_potential_warning (merged : List MergedRow) (min_year : ℤ)
    (hpos : ∀ r ∈ merged, 0 ≤ r.streams) (y : ℤ) :
    ValidationError.warnHighPotential ∉
      (validate_kpi_output (aggregate_kpis merged min_year) y).2 := by
  have hall : ∀ x ∈ (aggregate_kpis merged min_year).map (·.market_potential_score),
      x ≤ 100 := by
    intro x hx
    obtain ⟨rec, hrec, rfl⟩ := List.mem_map.mp hx
    obtain ⟨yy, mm, gg, _, rfl⟩ := mem_aggregate_kpis hrec
    exact (kpi_row_potential_bounds merged min_year yy mm gg hpos).2
  have h150 : ¬ (150 <
      ((aggregate_kpis merged min_year).map (·.market_potential_score)).foldr max 0) := by
    have := foldr_max_le (by norm_num : (0 : ℚ) ≤ 100) hall
    push_neg
    linarith
  simp only [validate_kpi_output]
  rw [if_neg h150]
  split_ifs <;> simp

/-! Claim theorems -/

/-- C1: the claim says warning-level validator checks do not block export,
but `validate_kpi_output` appends both warning checks to the same error
list that decides validity. On a KPI table passing all three hard checks
whose only defect is a baseline-year row with growth index 105, the
validator reports exactly the baseline warning, returns ok = false, and
`main` skips the export, leaving the output directory unchanged. -/
theorem C1_theorem :
    (validate_kpi_output kpiC1 2017).1 = false ∧
    (validate_kpi_output kpiC1 2017).2 = [ValidationError.warnBaselineNot100] ∧
    run_export [("cleaned_charts_kpi.csv", 3)] kpiC1 2017 5 5 5 =
      [("cleaned_charts_kpi.csv", 3)] := by
  refine ⟨by rw [validate_kpiC1_eval], by rw [validate_kpiC1_eval], ?_⟩
  simp [run_export, validate_kpiC1_eval]

/-- C2 counterexample: the scoring engine does not return 59.0 on the
single-row batch of the scenario (rank 1, streams 0, danceability 0.8,
energy 0.8, followers 0, top-10 flag 1). -/
theorem C2_counterexample : calculate_success_score scoreC2 ≠ [59] := by
  rw [scoreC2_eval]
  simp only [ne_eq, List.cons.injEq, and_true]
  norm_num

/-- C2 (amended): on that batch the score is exactly 58.875 — the rank
term contributes 0.25 · (200 − 1)/200 · 100 = 24.875, not 25. -/
theorem C2_theorem : calculate_success_score scoreC2 = [58.875] :=
  scoreC2_eval

/-- C3 counterexample: on the scenario slice the aggregator produces the
claimed market shares 80.0 and 20.0, but the stored Shannon diversity is
more than 0.1 away from the claimed value 0.50. -/
theorem C3_counterexample :
    ((aggregate_kpis mergedC3 2017).map fun r => (r.genre_harmonized, r.market_share_percent)) =
      [("Pop", 80), ("Rock", 20)] ∧
    ((aggregate_kpis mergedC3 2017).map fun r => r.shannon_diversity) =
      [shannonC3, shannonC3] ∧
    0.1 < |shannonC3 - 0.5| := by
  refine ⟨by simp [aggregate_kpis_mergedC3], by simp [aggregate_kpis_mergedC3], ?_⟩
  have h := shannonC3_bounds
  rw [abs_of_pos (by linarith [h.1] : (0 : ℝ) < shannonC3 - 0.5)]
  linarith [h.1]

/-- C3 (amended): market shares are 80.0 for Pop and 20.0 for Rock, and
the Shannon diversity over the genre row proportions p = 2/3, 1/3 is
approximately 0.64 — the stored value lies strictly between 0.63 and
0.64. -/
theorem C3_theorem :
    ((aggregate_kpis mergedC3 2017).map fun r => (r.genre_harmonized, r.market_share_percent)) =
      [("Pop", 80), ("Rock", 20)] ∧
    ((aggregate_kpis mergedC3 2017).map fun r => r.shannon_diversity) =
      [shannonC3, shannonC3] ∧
    0.63 < shannonC3 ∧ shannonC3 < 0.64 :=
  ⟨by simp [aggregate_kpis_mergedC3], by simp [aggregate_kpis_mergedC3],
    shannonC3_bounds.1, shannonC3_bounds.2⟩

/-- C4 counterexample: the category label "Hip-Hop" satisfies the claim's
proviso (no mapping key occurs as a substring of its lower-casing), yet
the harmonizer does not return it unchanged: "hip-hop" is not a mapping
key (the keys spell "hip hop"), so the result is "Other". -/
theorem C4_counterexample :
    harmonize_genre (some ("Hip-Hop")) = "Other" ∧
    GENRE_MAPPING.find? (fun kv => occursIn kv.1.toList (lowerStrip ("Hip-Hop"))) = none ∧
    "Hip-Hop" ≠ "Other" := by
  decide

/-- C4 (amended): the harmonizer is idempotent on the other seven fixed
categories, whose lower-casings are themselves mapping keys. -/
theorem C4_theorem :
    harmonize_genre (some ("Pop")) = "Pop" ∧
    harmonize_genre (some ("Electronic")) = "Electronic" ∧
    harmonize_genre (some ("Rock")) = "Rock" ∧
    harmonize_genre (some ("R&B")) = "R&B" ∧
    harmonize_genre (some ("Latin")) = "Latin" ∧
    harmonize_genre (some ("Country")) = "Country" ∧
    harmonize_genre (some ("Jazz")) = "Jazz" := by
  decide

/-- C5: with audio and genre tables deduplicated on track_id, the two
sequential left joins keep exactly one output row per chart row, unmatched
genre values become "Other", and unmatched audio stays missing. -/
theorem C5_theorem (charts : List ChartRow) (audio : List AudioRow) (genre : List GenreRow)
    (hA : (audio.map (·.track_id)).Nodup) (hG : (genre.map (·.track_id)).Nodup) :
    (merge_charts charts audio genre).length = charts.length ∧
    ∀ m ∈ merge_charts charts audio genre,
      ((∀ g ∈ genre, g.track_id ≠ m.chart.track_id) → m.genre_harmonized = "Other") ∧
      ((∀ a ∈ audio, a.track_id ≠ m.chart.track_id) → m.audio = none) := by
  constructor
  · simp only [merge_charts, List.length_map]
    rw [merge_left_length _ _ _ _ hG, merge_left_length _ _ _ _ hA]
  · intro m hm
    simp only [merge_charts, List.mem_map] at hm
    obtain ⟨p, hp, rfl⟩ := hm
    obtain ⟨hp1, hp2⟩ := mem_merge_left hp
    obtain ⟨hq1, hq2⟩ := mem_merge_left hp1
    constructor
    · intro hnog
      rcases hp2 with hnone | ⟨b, hb, hbin, hbk⟩
      · simp [hnone]
      · exact absurd hbk (hnog b hbin)
    · intro hnoa
      rcases hq2 with hnone | ⟨a, ha, hain, hak⟩
      · exact hnone
      · exact absurd hak (hnoa a hain)

def chartsC5 : List ChartRow :=
  [⟨"a", "2021-01-01", "DE", 10⟩, ⟨"b", "2021-01-01", "DE", 5⟩]

def audioC5 : List AudioRow := [⟨"a", some 0.5, some 0.6⟩]

def genreC5 : List GenreRow := [⟨"a", "Pop"⟩]

/-- C5 witness: the invariant instantiated on a two-row chart table. -/
theorem C5_witness :
    (audioC5.map (·.track_id)).Nodup ∧ (genreC5.map (·.track_id)).Nodup ∧
    (merge_charts chartsC5 audioC5 genreC5).length = chartsC5.length :=
  ⟨by decide, by decide, (C5_theorem chartsC5 audioC5 genreC5 (by decide) (by decide)).1⟩

/-- C6: every aggregator row at the baseline year, or whose (market,
genre) pair has no baseline data or zero baseline streams, carries growth
momentum exactly 100.0; otherwise the index is current genre streams over
the genre's baseline streams in the same market, times 100. -/
theorem C6_theorem (merged : List MergedRow) (min_year : ℤ) (rec : KPIRecord)
    (h : rec ∈ aggregate_kpis merged min_year) :
    (rec.year = min_year →
      rec.index_growth_2017_2021 = 100 ∧ rec.growth_momentum_index = 100) ∧
    (baselineGroup merged min_year rec.market rec.genre_harmonized = [] →
      rec.index_growth_2017_2021 = 100 ∧ rec.growth_momentum_index = 100) ∧
    (((baselineGroup merged min_year rec.market rec.genre_harmonized).map (·.streams)).sum = 0 →
      rec.index_growth_2017_2021 = 100 ∧ rec.growth_momentum_index = 100) ∧
    (min_year < rec.year →
      baselineGroup merged min_year rec.market rec.genre_harmonized ≠ [] →
      0 < ((baselineGroup merged min_year rec.market rec.genre_harmonized).map (·.streams)).sum →
      rec.index_growth_2017_2021 =
        rec.streams_total /
          ((baselineGroup merged min_year rec.market rec.genre_harmonized).map
            (·.streams)).sum * 100 ∧
      rec.growth_momentum_index = pyRound2 rec.index_growth_2017_2021) := by
  obtain ⟨y, m, g, _, rfl⟩ := mem_aggregate_kpis h
  have hgrow : (kpi_row merged min_year y m g).index_growth_2017_2021 =
      growth_momentum merged min_year y m g (kpi_row merged min_year y m g).streams_total := rfl
  have hgmi : (kpi_row merged min_year y m g).growth_momentum_index =
      pyRound2 (growth_momentum merged min_year y m g
        (kpi_row merged min_year y m g).streams_total) := rfl
  refine ⟨?_, ?_, ?_, ?_⟩
  · intro hy
    replace hy : y = min_year := hy
    subst hy
    rw [hgrow, hgmi, growth_momentum_baseline_year]
    exact ⟨rfl, pyRound2_100⟩
  · intro hb
    have hb2 : baselineGroup merged min_year m g = [] := hb
    rw [hgrow, hgmi, growth_momentum_no_baseline hb2]
    exact ⟨rfl, pyRound2_100⟩
  · intro hs
    have hs2 : ((baselineGroup merged min_year m g).map (·.streams)).sum = 0 := hs
    rw [hgrow, hgmi, growth_momentum_zero_baseline hs2]
    exact ⟨rfl, pyRound2_100⟩
  · intro hy hne hsum
    have hy2 : min_year < y := hy
    have hne2 : baselineGroup merged min_year m g ≠ [] := hne
    have hsum2 : 0 < ((baselineGroup merged min_year m g).map (·.streams)).sum := hsum
    refine ⟨?_, hgmi⟩
    rw [hgrow, growth_momentum_ratio hne2 hy2 hsum2]
    rfl

/-- C6 witness: on the two-year table, the 2017 row gets index 100 and
the 2018 row gets 150/100 · 100. -/
theorem C6_witness :
    (recC6A.year = 2017 ∧
      recC6A.index_growth_2017_2021 = 100 ∧ recC6A.growth_momentum_index = 100) ∧
    recC6B.index_growth_2017_2021 =
      recC6B.streams_total /
        ((baselineGroup mergedC6 2017 recC6B.market recC6B.genre_harmonized).map
          (·.streams)).sum * 100 := by
  have hmemA : recC6A ∈ aggregate_kpis mergedC6 2017 := by
    rw [aggregate_kpis_mergedC6]
    exact List.mem_cons_self _ _
  have hmemB : recC6B ∈ aggregate_kpis mergedC6 2017 := by
    rw [aggregate_kpis_mergedC6]
    exact List.mem_cons_of_mem _ (List.mem_cons_self _ _)
  have hA := (C6_theorem mergedC6 2017 recC6A hmemA).1 rfl
  have hsum : 0 < ((baselineGroup mergedC6 2017 recC6B.market
      recC6B.genre_harmonized).map (·.streams)).sum := by
    simp +decide [baselineGroup, mergedC6, recC6B]
  have hne : baselineGroup mergedC6 2017 recC6B.market recC6B.genre_harmonized ≠ [] := by
    decide
  have hB := (C6_theorem mergedC6 2017 recC6B hmemB).2.2.2 (by decide) hne hsum
  exact ⟨⟨rfl, hA⟩, hB.1⟩

/-- C7: the numeric cleaner with both bounds never drops an entry, keeps
every non-missing output inside the bounds, and turns every entry whose
numeric coercion fails into a missing value. -/
theorem C7_theorem (series : List RawCell) (lo hi : ℚ) (hlohi : lo ≤ hi) :
    (clean_numeric_column series (some lo) (some hi)).length = series.length ∧
    (∀ c ∈ clean_numeric_column series (some lo) (some hi),
      ∀ q, c = some q → lo ≤ q ∧ q ≤ hi) ∧
    ∀ i (h1 : i < series.length)
      (h2 : i < (clean_numeric_column series (some lo) (some hi)).length),
      toNumericCell (series.get ⟨i, h1⟩) = none →
      (clean_numeric_column series (some lo) (some hi)).get ⟨i, h2⟩ = none := by
  refine ⟨by simp [clean_numeric_column], ?_, ?_⟩
  · intro c hc q hq
    subst hq
    simp only [clean_numeric_column, List.map_map, List.mem_map, Function.comp] at hc
    obtain ⟨cell, hcell, hc⟩ := hc
    cases hc3 : toNumericCell cell with
    | none =>
      rw [hc3] at hc
      simp at hc
    | some q1 =>
      rw [hc3] at hc
      simp only [Option.map_some', Option.some.injEq] at hc
      subst hc
      exact ⟨le_min (le_max_right _ _) hlohi, min_le_right _ _⟩
  · intro i h1 h2 hnone
    simp only [clean_numeric_column, List.get_eq_getElem, List.getElem_map]
    rw [List.get_eq_getElem] at hnone
    rw [hnone]
    rfl

def seriesC7 : List RawCell := [.num 5, .str ("abc"), .null, .num 0.5]

/-- C7 witness: the cleaner contract instantiated at bounds 0 and 1. -/
theorem C7_witness :
    (0 : ℚ) ≤ 1 ∧
    ∀ c ∈ clean_numeric_column seriesC7 (some 0) (some 1),
      ∀ q, c = some q → 0 ≤ q ∧ q ≤ 1 :=
  ⟨by norm_num, (C7_theorem seriesC7 0 1 (by norm_num)).2.1⟩

/-- C8: whenever validation of the KPI table fails, the run returns
before writing any of the four output tables, so the output directory is
exactly what the previous successful run left. -/
theorem C8_theorem (fs : FileSystem) (kpi : List KPIRecord) (min_year : ℤ)
    (merged_rows high_potential_rows market_trends_rows : ℕ)
    (h : (validate_kpi_output kpi min_year).1 = false) :
    run_export fs kpi min_year merged_rows high_potential_rows market_trends_rows = fs := by
  simp [run_export, h]

/-- C8 witness: with the warning-tripped table, nothing is written over
an existing output file. -/
theorem C8_witness :
    (validate_kpi_output kpiC1 2017).1 = false ∧
    run_export [("data_journal.csv", 7)] kpiC1 2017 3 3 3 = [("data_journal.csv", 7)] :=
  ⟨by rw [validate_kpiC1_eval],
    C8_theorem _ _ _ _ _ _ (by rw [validate_kpiC1_eval])⟩

/-- C9: the scoring engine and the KPI aggregation are pure functions of
the input tables and the configured baseline year: two runs on equal
inputs produce equal score lists and equal KPI tables. -/
theorem C9_theorem (df1 df2 : ScoreFrame) (m1 m2 : List MergedRow) (y1 y2 : ℤ)
    (hdf : df1 = df2) (hm : m1 = m2) (hy : y1 = y2) :
    calculate_success_score df1 = calculate_success_score df2 ∧
    aggregate_kpis m1 y1 = aggregate_kpis m2 y2 := by
  subst hdf
  subst hm
  subst hy
  exact ⟨rfl, rfl⟩

/-- C9 witness: two runs on the scenario inputs coincide. -/
theorem C9_witness :
    calculate_success_score scoreC2 = calculate_success_score scoreC2 ∧
    aggregate_kpis mergedC3 2017 = aggregate_kpis mergedC3 2017 :=
  C9_theorem scoreC2 scoreC2 mergedC3 mergedC3 2017 2017 rfl rfl rfl

/-- C10: with nonnegative input streams, every KPI row's market potential
score lies in [0, 100], so the validator's warning ceiling of 150 can
never be tripped by aggregator output. -/
theorem C10_theorem (merged : List MergedRow) (min_year : ℤ)
    (hpos : ∀ r ∈ merged, 0 ≤ r.streams) :
    (∀ rec ∈ aggregate_kpis merged min_year,
      0 ≤ rec.market_potential_score ∧ rec.market_potential_score ≤ 100) ∧
    ∀ y : ℤ, ValidationError.warnHighPotential ∉
      (validate_kpi_output (aggregate_kpis merged min_year) y).2 := by
  refine ⟨?_, aggregate_no_high_potential_warning merged min_year hpos⟩
  intro rec h
  obtain ⟨y, m, g, _, rfl⟩ := mem_aggregate_kpis h
  exact kpi_row_potential_bounds merged min_year y m g hpos

/-- C10 witness: the bound instantiated on the two-year table. -/
theorem C10_witness :
    (∀ r ∈ mergedC6, (0 : ℚ) ≤ r.streams) ∧
    (0 ≤ recC6B.market_potential_score ∧ recC6B.market_potential_score ≤ 100) ∧
    ValidationError.warnHighPotential ∉
      (validate_kpi_output (aggregate_kpis mergedC6 2017) 2017).2 := by
  have hpos : ∀ r ∈ mergedC6, (0 : ℚ) ≤ r.streams := by decide
  have h := C10_theorem mergedC6 2017 hpos
  refine ⟨hpos, h.1 recC6B ?_, h.2 2017⟩
  rw [aggregate_kpis_mergedC6]
  exact List.mem_cons_of_mem _ (List.mem_cons_self _ _)

end DV
